import Mathlib

/-!
Verification of the data-transformation core of `snyk-to-html`
(`src/lib/snyk-to-html.ts`): the remediation resolver (`hh.getRemediation`),
the vulnerability grouper (`groupVulns` / `metadataForVuln`), the multi-report
merger (`mergeData`), and the pipeline orchestration (`processData` /
`generateTemplate` / `SnykToHtml.run`).

Modelling conventions:
* JavaScript strings are Lean `String`s (ASCII payloads, so UTF-16 index
  arithmetic coincides with character counting).
* A JavaScript value that may be `undefined`/`null` is an `Option`.
* A thrown `TypeError` is `Except.error ()`; normal returns are `Except.ok`.
* The `marked` markdown renderer is an external collaborator; it is modelled
  as the identity on its input text (the claims concern the text handed to it).
-/

/-- Character-level first-occurrence search: `indexOfFrom pat s` is the least
index at which `pat` occurs as a contiguous sublist of `s`, or `none`.
This models JavaScript `String.prototype.indexOf` (which returns `-1` for
"not found"; `none` plays the role of `-1`). -/
def indexOfFrom (pat : List Char) : List Char → Option Nat
  | [] => if pat = [] then some 0 else none
  | c :: rest =>
    if pat.isPrefixOf (c :: rest) then some 0
    else (indexOfFrom pat rest).map (· + 1)

/-- JavaScript `s.indexOf(pat)` on the character level, with `none` for `-1`. -/
def jsIndexOf (s pat : String) : Option Nat :=
  indexOfFrom pat.data s.data

/-- JavaScript `s.substring(i)`: the suffix of `s` starting at character
index `i`. -/
def jsSubstring (s : String) (i : Nat) : String :=
  String.mk (s.data.drop i)

/-- External markdown renderer (`marked` library). It is a collaborator
outside the core, modelled as the identity on the markdown text passed
to it; the claims under verification concern that text. -/
def marked (s : String) : String := s

/-- Source constant `defaultRemediationText` (line 10 of the source). -/
def defaultRemediationText : String :=
  "## Remediation\nThere is no remediation at the moment"

/-- Handlebars helper `hh.getRemediation(description, fixedIn)` (source lines
181-196). Faithful translation:
* `description.indexOf('## Remediation')` throws a `TypeError` when
  `description` is `undefined`/`null`, hence the `.error ()` on `none`;
* when the heading occurs at index `i`, the result is
  `marked(description.substring(i))`;
* otherwise `Array.isArray(fixedIn) && fixedIn.length` selects the
  synthesized heading with the versions joined by `", "` (a `none` here also
  covers a non-array `fixedIn`, which fails the `Array.isArray` guard);
* otherwise the default fallback text is rendered. -/
def getRemediation (description : Option String) (fixedIn : Option (List String)) :
    Except Unit String :=
  match description with
  | none => .error ()
  | some d =>
    match jsIndexOf d "## Remediation" with
    | some i => .ok (marked (jsSubstring d i))
    | none =>
      match fixedIn with
      | some (v :: vs) =>
        .ok (marked ("## Remediation\n Fixed in: " ++ String.intercalate ", " (v :: vs)))
      | _ => .ok (marked defaultRemediationText)

/-- One vulnerability occurrence, as consumed by `metadataForVuln` and
`groupVulns` (only the fields the source reads). `Option` marks fields that
may be `undefined` in the parsed JSON. -/
structure Vuln where
  id : String
  title : Option String
  name : Option String
  info : Option String
  severity : Option String
  description : Option String
  fixedIn : Option (List String)
  packageManager : Option String
  deriving DecidableEq, Repr

/-- Source constant `severityMap = {low: 0, medium: 1, high: 2}` (line 9);
an unknown or absent severity indexes to `undefined`. -/
def severityMap (s : String) : Option Nat :=
  if s = "low" then some 0
  else if s = "medium" then some 1
  else if s = "high" then some 2
  else none

/-- JavaScript `v || dflt` on an optional string: `undefined`/`null` and the
empty string (the only falsy strings) fall back to `dflt`. -/
def jsOrStr (v : Option String) (dflt : String) : String :=
  match v with
  | none => dflt
  | some s => if s = "" then dflt else s

/-- Group metadata derived from one occurrence (`metadataForVuln`, source
lines 44-56). -/
structure Metadata where
  id : String
  title : Option String
  name : Option String
  info : String
  severity : Option String
  severityValue : Option Nat
  description : String
  fixedIn : Option (List String)
  packageManager : Option String
  deriving DecidableEq, Repr

/-- Faithful translation of `metadataForVuln` (source lines 44-56):
`info` and `description` get their textual fallbacks via `||`, and the
severity is ranked through `severityMap`. -/
def metadataForVuln (v : Vuln) : Metadata where
  id := v.id
  title := v.title
  name := v.name
  info := jsOrStr v.info "No information available."
  severity := v.severity
  severityValue := v.severity.bind severityMap
  description := jsOrStr v.description "No description available."
  fixedIn := v.fixedIn
  packageManager := v.packageManager

/-- One group in the result mapping: the occurrence list plus the frozen
metadata (`{list: [...], metadata: ...}` in the source). -/
structure VulnGroup where
  list : List Vuln
  metadata : Metadata
  deriving DecidableEq, Repr

/-- Properties every plain JavaScript object inherits from
`Object.prototype`, each bound to a truthy value (a function, or
`Object.prototype` itself for `__proto__`). A lookup `result[k]` on the
grouper's `result = {}` yields a truthy value for these keys even when no
own property `k` was ever assigned. -/
def inheritedProps : List String :=
  ["constructor", "hasOwnProperty", "isPrototypeOf", "propertyIsEnumerable",
   "toLocaleString", "toString", "valueOf", "__defineGetter__",
   "__defineSetter__", "__lookupGetter__", "__lookupSetter__", "__proto__"]

/-- Own-property lookup in the grouper's `result` object, modelled as an
insertion-ordered association list. -/
def findGroup : List (String × VulnGroup) → String → Option VulnGroup
  | [], _ => none
  | (k, g) :: rest, id => if k = id then some g else findGroup rest id

/-- Truthiness of the JavaScript lookup `result[id]` on a plain object whose
own values are always objects (hence truthy): truthy iff `id` is an own key
or an inherited `Object.prototype` property. -/
def jsTruthy (res : List (String × VulnGroup)) (id : String) : Bool :=
  (findGroup res id).isSome || decide (id ∈ inheritedProps)

/-- In-place update of the value stored at an existing key (JavaScript
objects keep the original insertion position on re-assignment). -/
def updateAssoc : List (String × VulnGroup) → String → VulnGroup → List (String × VulnGroup)
  | [], _, _ => []
  | (k, g) :: rest, id, g' =>
    if k = id then (id, g') :: rest else (k, g) :: updateAssoc rest id g'

/-- Grouper loop state: the `result` object and the two counters. -/
structure GroupState where
  res : List (String × VulnGroup)
  uniqueCount : Nat
  pathsCount : Nat
  deriving DecidableEq, Repr

/-- One iteration of the `vulns.map(vuln => ...)` loop (source lines 64-73).
When `!result[vuln.id]` holds, a fresh group is installed and both counters
advance; otherwise the code evaluates `result[vuln.id].list.push(vuln)`,
which appends when an own group exists but throws a `TypeError` when the
truthy lookup came from an inherited `Object.prototype` property (the
inherited value has no `list`). -/
def groupStep (st : GroupState) (v : Vuln) : Except Unit GroupState :=
  if jsTruthy st.res v.id then
    match findGroup st.res v.id with
    | some g =>
      .ok ⟨updateAssoc st.res v.id ⟨g.list ++ [v], g.metadata⟩,
           st.uniqueCount, st.pathsCount + 1⟩
    | none => .error ()
  else
    .ok ⟨st.res ++ [(v.id, ⟨[v], metadataForVuln v⟩)],
         st.uniqueCount + 1, st.pathsCount + 1⟩

/-- The grouper loop over the whole occurrence sequence. -/
def groupVulnsGo : GroupState → List Vuln → Except Unit GroupState
  | st, [] => .ok st
  | st, v :: rest =>
    match groupStep st v with
    | .ok st' => groupVulnsGo st' rest
    | .error e => .error e

/-- The grouper's input `vulns`: absent (`undefined`/`null`), present but not
an array (failing `Array.isArray`), or an actual array of occurrences. -/
inductive VulnsInput where
  | absent
  | malformed
  | arr (vs : List Vuln)
  deriving DecidableEq, Repr

/-- The grouper's return value (source lines 76-80). -/
structure GroupResult where
  vulnerabilities : List (String × VulnGroup)
  vulnerabilitiesUniqueCount : Nat
  vulnerabilitiesPathsCount : Nat
  deriving DecidableEq, Repr

/-- Faithful translation of `groupVulns` (source lines 58-81): the
`vulns && Array.isArray(vulns)` guard skips the loop entirely for absent or
non-array input, leaving the empty mapping and zero counters. -/
def groupVulns (input : VulnsInput) : Except Unit GroupResult :=
  match input with
  | .arr vs =>
    (groupVulnsGo ⟨[], 0, 0⟩ vs).map fun st =>
      ⟨st.res, st.uniqueCount, st.pathsCount⟩
  | _ => .ok ⟨[], 0, 0⟩

/-- Successor state of one loop iteration on an identifier that is not an
inherited property: exactly the two `.ok` branches of `groupStep`. -/
def nextState (st : GroupState) (v : Vuln) : GroupState :=
  match findGroup st.res v.id with
  | some g =>
    ⟨updateAssoc st.res v.id ⟨g.list ++ [v], g.metadata⟩,
     st.uniqueCount, st.pathsCount + 1⟩
  | none =>
    ⟨st.res ++ [(v.id, ⟨[v], metadataForVuln v⟩)],
     st.uniqueCount + 1, st.pathsCount + 1⟩

/-- All occurrences in `vs` carrying identifier `id`, in input order. -/
def occurrencesOf (vs : List Vuln) (id : String) : List Vuln :=
  vs.filter (fun v => v.id == id)

/-- The first occurrence in `vs` carrying identifier `id`, if any. -/
def firstOccurrence (vs : List Vuln) (id : String) : Option Vuln :=
  vs.find? (fun v => v.id == id)

/-- One parsed project report, as read by `mergeData` (source lines 108-126):
each field may be absent in the input document. -/
structure Report where
  vulnerabilities : Option (List Vuln)
  dependencyCount : Option Nat
  path : Option String
  packageManager : Option String
  deriving DecidableEq, Repr

/-- The reduce on source line 112-113:
`dataArray.reduce((acc, item) => acc + item.vulnerabilities.length || 0, 0)`.
By JavaScript precedence this is `(acc + item.vulnerabilities.length) || 0`,
so a report whose `vulnerabilities` is absent throws a `TypeError` on the
`.length` dereference. When the list is present, `(acc + len) || 0` equals
`acc + len` (the `|| 0` only maps a zero sum to the same zero). -/
def uniqueCountFold : Nat → List Report → Except Unit Nat
  | acc, [] => .ok acc
  | acc, item :: rest =>
    match item.vulnerabilities with
    | some vs => uniqueCountFold (acc + vs.length) rest
    | none => .error ()

/-- The reduce on source lines 114-115:
`dataArray.reduce((acc, item) => acc + item.dependencyCount || 0, 0)`.
By JavaScript precedence this is `(acc + item.dependencyCount) || 0`: a
present count `n` contributes `acc + n` (`|| 0` maps a zero sum to the same
zero), while an absent count makes `acc + undefined = NaN` and `NaN || 0 = 0`
— the running total is reset to zero. -/
def depCountFold : Nat → List Report → Nat
  | acc, [] => acc
  | acc, item :: rest =>
    match item.dependencyCount with
    | some n => depCountFold (acc + n) rest
    | none => depCountFold 0 rest

/-- The object returned by `mergeData` (source lines 119-125). -/
structure MergedData where
  vulnerabilities : List Vuln
  uniqueCount : Nat
  summary : String
  dependencyCount : Nat
  paths : List (Option String × Option String)
  deriving DecidableEq, Repr

/-- Faithful translation of `mergeData` (source lines 108-126):
`project.vulnerabilities || []` treats an absent list as empty for the
concatenation, but the `totalUniqueCount` reduce dereferences the raw field
and can throw; see `uniqueCountFold` and `depCountFold` for the two reduces. -/
def mergeData (dataArray : List Report) : Except Unit MergedData :=
  let vulnsArrays := dataArray.map fun project => project.vulnerabilities.getD []
  let aggregateVulnerabilities := vulnsArrays.flatten
  match uniqueCountFold 0 dataArray with
  | .error e => .error e
  | .ok totalUniqueCount =>
    .ok { vulnerabilities := aggregateVulnerabilities,
          uniqueCount := totalUniqueCount,
          summary := toString aggregateVulnerabilities.length ++
            " vulnerable dependency paths",
          dependencyCount := depCountFold 0 dataArray,
          paths := dataArray.map fun project => (project.path, project.packageManager) }

/-- Observation: does some report in the list lack its dependency count? -/
def anyMissingDep (rs : List Report) : Bool :=
  rs.any fun A => A.dependencyCount.isNone

/-- Observation: the plain sum of the dependency counts, a missing count
contributing zero (the spec's reading of the total). -/
def depSum (rs : List Report) : Nat :=
  (rs.map fun A => A.dependencyCount.getD 0).sum

/-- Observation: the sum of the dependency counts of the reports strictly
after the last report whose count is missing (the whole sum when none is
missing) — the value the code's resetting reduce actually produces. -/
def depCountAfterLastMissing : List Report → Nat
  | [] => 0
  | A :: rest =>
    if anyMissingDep rest then depCountAfterLastMissing rest
    else
      match A.dependencyCount with
      | some n => n + depSum rest
      | none => depSum rest

/-- The render context assembled by `generateTemplate` (source lines 94-106)
and handed to the external handlebars renderer: the grouped mapping, the
grouper's counts, the summary string, the display flag, and the remaining
top-level fields of the (single or merged) report, passed through. -/
structure RenderContext where
  vulnerabilities : List (String × VulnGroup)
  uniqueCount : Nat
  summary : String
  showSummaryOnly : Bool
  dependencyCount : Option Nat
  paths : Option (List (Option String × Option String))
  deriving DecidableEq, Repr

/-- Data-context assembly of `generateTemplate` (source lines 94-106): the
grouper runs over `data.vulnerabilities`, then `data.uniqueCount` and
`data.summary` are overwritten with the grouper's unique count and
`pathsCount + ' vulnerable dependency paths'` (clobbering any values the
merger put there), and `showSummaryOnly` is set from the caller's flag. The
template loading, partial registration and rendering (lines 101-105) are
filesystem/rendering collaborators outside the core and are elided: this
models the context handed to them. -/
def generateTemplate (vulns : VulnsInput) (dep : Option Nat)
    (paths : Option (List (Option String × Option String))) (summary : Bool) :
    Except Unit RenderContext :=
  (groupVulns vulns).map fun g =>
    { vulnerabilities := g.vulnerabilities,
      uniqueCount := g.vulnerabilitiesUniqueCount,
      summary := toString g.vulnerabilitiesPathsCount ++ " vulnerable dependency paths",
      showSummaryOnly := summary,
      dependencyCount := dep,
      paths := paths }

/-- Parsed top-level input to `processData` (source lines 128-131): either a
single report object (whose `vulnerabilities` may be absent or malformed) or
an array of project reports. -/
inductive TopInput where
  | single (vulns : VulnsInput) (dep : Option Nat)
  | multi (rs : List Report)
  deriving DecidableEq, Repr

/-- Faithful translation of `processData` (source lines 128-131):
`Array.isArray(data)` routes an array through `mergeData` first; the merged
report carries a definite dependency count and path list into the context,
a single report passes its own fields through. -/
def processData (input : TopInput) (summary : Bool) : Except Unit RenderContext :=
  match input with
  | .single vulns dep => generateTemplate vulns dep none summary
  | .multi rs =>
    match mergeData rs with
    | .error e => .error e
    | .ok m =>
      generateTemplate (.arr m.vulnerabilities) (some m.dependencyCount)
        (some m.paths) summary

/-- Externally observable effects of one `SnykToHtml.run` invocation: the
values passed to the report callback and the values passed to `console.log`. -/
structure RunEffect where
  callbackCalls : List String
  consoleLogs : List String
  deriving DecidableEq, Repr

/-- Faithful translation of `SnykToHtml.run` (source lines 24-32). Its
argument is the settled outcome of `runAsync` (source lines 34-39: read the
source, `JSON.parse` it, `processData` and render — `.ok` carries the
rendered document, `.error` an unreadable source/template or a parse
failure). The promise chain `.then(reportCallback).catch(console.log)`
invokes the report callback exactly once with the document on success; on
failure the callback is never invoked and the error goes to `console.log`. -/
def SnykToHtml.run (asyncOutcome : Except String String) : RunEffect :=
  match asyncOutcome with
  | .ok doc => { callbackCalls := [doc], consoleLogs := [] }
  | .error e => { callbackCalls := [], consoleLogs := [e] }

/-- Loop invariant tying the unique counter to the mapping: the counter equals
the number of stored groups and the stored keys are pairwise distinct. -/
def GoodState (st : GroupState) : Prop :=
  st.uniqueCount = st.res.length ∧ (st.res.map Prod.fst).Nodup

theorem groupStep_safe (st : GroupState) (v : Vuln) (h : v.id ∉ inheritedProps) :
    groupStep st v = .ok (nextState st v) := by
  cases hfg : findGroup st.res v.id <;>
    simp [groupStep, nextState, jsTruthy, hfg, h]

theorem groupVulnsGo_safe (vs : List Vuln) :
    ∀ st : GroupState, (∀ v ∈ vs, v.id ∉ inheritedProps) →
      groupVulnsGo st vs = .ok (vs.foldl nextState st) := by
  induction vs with
  | nil => intro st _; rfl
  | cons v rest ih =>
    intro st h
    rw [List.foldl_cons]
    simpa [groupVulnsGo, groupStep_safe st v (h v (by simp))] using
      ih (nextState st v) (fun w hw => h w (by simp [hw]))

theorem findGroup_eq_none_iff (res : List (String × VulnGroup)) (id : String) :
    findGroup res id = none ↔ id ∉ res.map Prod.fst := by
  induction res with
  | nil => simp [findGroup]
  | cons p rest ih =>
    obtain ⟨k, g⟩ := p
    by_cases hk : k = id
    · subst hk
      simp [findGroup]
    · simp [findGroup, hk, ih, Ne.symm hk]

theorem keys_updateAssoc (res : List (String × VulnGroup)) (k : String) (g : VulnGroup) :
    (updateAssoc res k g).map Prod.fst = res.map Prod.fst := by
  induction res with
  | nil => rfl
  | cons p rest ih =>
    obtain ⟨k0, g0⟩ := p
    by_cases hk : k0 = k <;> simp [updateAssoc, hk, ih]

theorem length_updateAssoc (res : List (String × VulnGroup)) (k : String) (g : VulnGroup) :
    (updateAssoc res k g).length = res.length := by
  have h := congrArg List.length (keys_updateAssoc res k g)
  simpa using h

theorem findGroup_updateAssoc (res : List (String × VulnGroup)) (k : String)
    (g : VulnGroup) (id : String) :
    findGroup (updateAssoc res k g) id =
      if k = id then (findGroup res k).map (fun _ => g) else findGroup res id := by
  induction res with
  | nil => by_cases hk : k = id <;> simp [updateAssoc, findGroup, hk]
  | cons p rest ih =>
    obtain ⟨k0, g0⟩ := p
    simp only [updateAssoc]
    by_cases hk0 : k0 = k
    · subst hk0
      by_cases hk : k0 = id <;> simp [findGroup, hk]
    · by_cases hid : k0 = id
      · subst hid
        have hk' : ¬k = k0 := fun h => hk0 h.symm
        simp [findGroup, hk0, hk', ih]
      · simp [findGroup, hk0, hid, ih]

theorem findGroup_append_single (res : List (String × VulnGroup)) (k : String)
    (g : VulnGroup) (id : String) :
    findGroup (res ++ [(k, g)]) id =
      match findGroup res id with
      | some g0 => some g0
      | none => if k = id then some g else none := by
  induction res with
  | nil => simp [findGroup]
  | cons p rest ih =>
    obtain ⟨k0, g0⟩ := p
    by_cases hk0 : k0 = id <;> simp [findGroup, hk0, ih]

theorem findGroup_nextState (st : GroupState) (v : Vuln) (id : String) :
    findGroup (nextState st v).res id =
      if v.id = id then
        match findGroup st.res id with
        | some g => some ⟨g.list ++ [v], g.metadata⟩
        | none => some ⟨[v], metadataForVuln v⟩
      else findGroup st.res id := by
  by_cases hv : v.id = id
  · subst hv
    cases hfg : findGroup st.res v.id <;>
      simp [nextState, hfg, findGroup_updateAssoc, findGroup_append_single]
  · cases hfg : findGroup st.res v.id <;>
      cases hfg' : findGroup st.res id <;>
        simp [nextState, hfg, hfg', findGroup_updateAssoc, findGroup_append_single, hv,
          fun h => hv h]

/-- Central characterization of the grouper loop: after folding `vs` into
state `st`, the group stored at `id` extends the group already in `st` by the
occurrences of `id` in `vs` (metadata untouched), and for a fresh `id` it is
built from the occurrences of `id` in `vs` with metadata taken from the first
one. -/
theorem findGroup_foldl (vs : List Vuln) :
    ∀ (st : GroupState) (id : String),
      findGroup (vs.foldl nextState st).res id =
        match findGroup st.res id with
        | some g => some ⟨g.list ++ occurrencesOf vs id, g.metadata⟩
        | none =>
          (firstOccurrence vs id).map fun v0 =>
            ⟨occurrencesOf vs id, metadataForVuln v0⟩ := by
  induction vs with
  | nil =>
    intro st id
    cases hfg : findGroup st.res id <;>
      simp [occurrencesOf, firstOccurrence, hfg]
  | cons v rest ih =>
    intro st id
    rw [List.foldl_cons, ih (nextState st v) id, findGroup_nextState]
    by_cases hv : v.id = id
    · cases hfg : findGroup st.res id <;>
        simp [hv, hfg, occurrencesOf, firstOccurrence, List.filter_cons,
          List.find?_cons, List.append_assoc]
    · have hv' : (v.id == id) = false := by simp [hv]
      cases hfg : findGroup st.res id <;>
        simp [hv, hv', hfg, occurrencesOf, firstOccurrence, List.filter_cons,
          List.find?_cons]

theorem pathsCount_nextState (st : GroupState) (v : Vuln) :
    (nextState st v).pathsCount = st.pathsCount + 1 := by
  cases hfg : findGroup st.res v.id <;> simp [nextState, hfg]

theorem pathsCount_foldl (vs : List Vuln) :
    ∀ st : GroupState, (vs.foldl nextState st).pathsCount = st.pathsCount + vs.length := by
  induction vs with
  | nil => intro st; simp
  | cons v rest ih =>
    intro st
    rw [List.foldl_cons, ih (nextState st v), pathsCount_nextState]
    simp [List.length_cons]
    omega

theorem goodState_nextState (st : GroupState) (v : Vuln) (h : GoodState st) :
    GoodState (nextState st v) := by
  obtain ⟨huc, hnd⟩ := h
  cases hfg : findGroup st.res v.id
  · have hmem : v.id ∉ st.res.map Prod.fst := (findGroup_eq_none_iff _ _).mp hfg
    refine ⟨?_, ?_⟩
    · simp [nextState, hfg, huc]
    · simp only [nextState, hfg, List.map_append, List.map_cons, List.map_nil]
      refine hnd.append (List.nodup_singleton _) ?_
      intro a ha hb
      have ha' : a = v.id := by simpa using hb
      subst ha'
      exact hmem ha
  · refine ⟨?_, ?_⟩
    · simp [nextState, hfg, huc, length_updateAssoc]
    · simpa [nextState, hfg, keys_updateAssoc] using hnd

theorem goodState_foldl (vs : List Vuln) :
    ∀ st : GroupState, GoodState st → GoodState (vs.foldl nextState st) := by
  induction vs with
  | nil => intro st h; exact h
  | cons v rest ih =>
    intro st h
    rw [List.foldl_cons]
    exact ih _ (goodState_nextState st v h)

theorem firstOccurrence_eq_none_iff (vs : List Vuln) (id : String) :
    firstOccurrence vs id = none ↔ id ∉ vs.map Vuln.id := by
  simp only [firstOccurrence, List.find?_eq_none, List.mem_map, beq_iff_eq,
    not_exists, not_and]

theorem mem_keys_foldl (vs : List Vuln) (st : GroupState) (id : String) :
    id ∈ (vs.foldl nextState st).res.map Prod.fst ↔
      id ∈ st.res.map Prod.fst ∨ id ∈ vs.map Vuln.id := by
  have hchar := findGroup_foldl vs st id
  have hnone : findGroup (vs.foldl nextState st).res id = none ↔
      (findGroup st.res id = none ∧ firstOccurrence vs id = none) := by
    cases hbase : findGroup st.res id <;> cases hfo : firstOccurrence vs id <;>
      rw [hbase, hfo] at hchar <;> simp [hchar]
  constructor
  · intro hm
    by_contra hcon
    push_neg at hcon
    exact (findGroup_eq_none_iff _ _).mp
      (hnone.mpr ⟨(findGroup_eq_none_iff _ _).mpr hcon.1,
        (firstOccurrence_eq_none_iff _ _).mpr hcon.2⟩) hm
  · intro hm
    by_contra hnf
    obtain ⟨hb, hf⟩ := hnone.mp ((findGroup_eq_none_iff _ _).mpr hnf)
    rcases hm with hm | hm
    · exact (findGroup_eq_none_iff _ _).mp hb hm
    · exact (firstOccurrence_eq_none_iff _ _).mp hf hm

theorem groupVulns_run (vs : List Vuln)
    (hsafe : ∀ v ∈ vs, v.id ∉ inheritedProps) :
    groupVulns (.arr vs) =
      .ok ⟨(vs.foldl nextState ⟨[], 0, 0⟩).res,
           (vs.foldl nextState ⟨[], 0, 0⟩).uniqueCount,
           (vs.foldl nextState ⟨[], 0, 0⟩).pathsCount⟩ := by
  rw [groupVulns, groupVulnsGo_safe vs ⟨[], 0, 0⟩ hsafe]
  rfl

theorem uniqueCount_foldl_empty (vs : List Vuln) :
    (vs.foldl nextState ⟨[], 0, 0⟩).uniqueCount = (vs.map Vuln.id).dedup.length := by
  obtain ⟨huc, hnd⟩ := goodState_foldl vs ⟨[], 0, 0⟩ ⟨rfl, List.nodup_nil⟩
  have hmem : ∀ id, id ∈ (vs.foldl nextState ⟨[], 0, 0⟩).res.map Prod.fst ↔
      id ∈ vs.map Vuln.id := by
    intro id
    simpa using mem_keys_foldl vs ⟨[], 0, 0⟩ id
  have hfin : ((vs.foldl nextState ⟨[], 0, 0⟩).res.map Prod.fst).toFinset =
      (vs.map Vuln.id).toFinset := by
    ext a
    simp only [List.mem_toFinset]
    exact hmem a
  calc (vs.foldl nextState ⟨[], 0, 0⟩).uniqueCount
      = ((vs.foldl nextState ⟨[], 0, 0⟩).res.map Prod.fst).length := by
        rw [huc, List.length_map]
    _ = ((vs.foldl nextState ⟨[], 0, 0⟩).res.map Prod.fst).toFinset.card :=
        (List.toFinset_card_of_nodup hnd).symm
    _ = ((vs.map Vuln.id).toFinset).card := by rw [hfin]
    _ = (vs.map Vuln.id).dedup.length := List.card_toFinset _

/-- C2: for every occurrence sequence (over identifiers that do not collide
with inherited object properties, without which the loop throws — see the
C10 theorem), the grouper succeeds and the group stored under each identifier
has exactly the occurrences bearing that identifier, in input order, and
metadata equal to `metadataForVuln` of the *first* such occurrence — which
replaces a missing `info` by `"No information available."` and a missing
`description` by `"No description available."`. Later occurrences with the
same identifier only extend the list, never the metadata. -/
theorem groupVulns_metadata_frozen (vs : List Vuln)
    (hsafe : ∀ v ∈ vs, v.id ∉ inheritedProps) :
    ∃ r, groupVulns (.arr vs) = .ok r ∧
      ∀ id, findGroup r.vulnerabilities id =
        (firstOccurrence vs id).map fun v0 =>
          ⟨occurrencesOf vs id, metadataForVuln v0⟩ := by
  refine ⟨_, groupVulns_run vs hsafe, fun id => ?_⟩
  simpa [findGroup] using findGroup_foldl vs ⟨[], 0, 0⟩ id

/-- Witness for C2 on a concrete three-occurrence input: identifier `"A"`
occurs twice (the second time with conflicting metadata fields), `"B"` once
with `info` and `description` missing. -/
theorem groupVulns_metadata_frozen_witness :
    (∀ v ∈ [({ id := "A", title := some "t1", name := some "n1", info := none,
               severity := some "high", description := some "d1",
               fixedIn := none, packageManager := some "npm" } : Vuln),
             { id := "B", title := none, name := none, info := none,
               severity := some "low", description := none,
               fixedIn := some ["2.0.0"], packageManager := none },
             { id := "A", title := some "t2", name := none, info := some "late",
               severity := none, description := some "d2",
               fixedIn := none, packageManager := none }],
        v.id ∉ inheritedProps) ∧
    (∃ r, groupVulns (.arr
        [{ id := "A", title := some "t1", name := some "n1", info := none,
           severity := some "high", description := some "d1",
           fixedIn := none, packageManager := some "npm" },
         { id := "B", title := none, name := none, info := none,
           severity := some "low", description := none,
           fixedIn := some ["2.0.0"], packageManager := none },
         { id := "A", title := some "t2", name := none, info := some "late",
           severity := none, description := some "d2",
           fixedIn := none, packageManager := none }]) = .ok r ∧
      ∀ id, findGroup r.vulnerabilities id =
        (firstOccurrence
          [{ id := "A", title := some "t1", name := some "n1", info := none,
             severity := some "high", description := some "d1",
             fixedIn := none, packageManager := some "npm" },
           { id := "B", title := none, name := none, info := none,
             severity := some "low", description := none,
             fixedIn := some ["2.0.0"], packageManager := none },
           { id := "A", title := some "t2", name := none, info := some "late",
             severity := none, description := some "d2",
             fixedIn := none, packageManager := none }] id).map fun v0 =>
          ⟨occurrencesOf
            [{ id := "A", title := some "t1", name := some "n1", info := none,
               severity := some "high", description := some "d1",
               fixedIn := none, packageManager := some "npm" },
             { id := "B", title := none, name := none, info := none,
               severity := some "low", description := none,
               fixedIn := some ["2.0.0"], packageManager := none },
             { id := "A", title := some "t2", name := none, info := some "late",
               severity := none, description := some "d2",
               fixedIn := none, packageManager := none }] id,
           metadataForVuln v0⟩) :=
  ⟨by decide, groupVulns_metadata_frozen _ (by decide)⟩

/-- C3: on every occurrence sequence (with identifiers clear of inherited
object properties), the grouper's counters satisfy
`uniqueCount <= pathsCount`, where `pathsCount` is the input length, and
equality holds exactly when all identifiers in the input are distinct. -/
theorem groupVulns_counts (vs : List Vuln)
    (hsafe : ∀ v ∈ vs, v.id ∉ inheritedProps) :
    ∃ r, groupVulns (.arr vs) = .ok r ∧
      r.vulnerabilitiesPathsCount = vs.length ∧
      r.vulnerabilitiesUniqueCount ≤ r.vulnerabilitiesPathsCount ∧
      (r.vulnerabilitiesUniqueCount = r.vulnerabilitiesPathsCount ↔
        (vs.map Vuln.id).Nodup) := by
  refine ⟨_, groupVulns_run vs hsafe, ?_, ?_, ?_⟩
  · simpa using pathsCount_foldl vs ⟨[], 0, 0⟩
  · show (vs.foldl nextState ⟨[], 0, 0⟩).uniqueCount ≤
      (vs.foldl nextState ⟨[], 0, 0⟩).pathsCount
    rw [uniqueCount_foldl_empty, pathsCount_foldl vs ⟨[], 0, 0⟩]
    calc (vs.map Vuln.id).dedup.length
        ≤ (vs.map Vuln.id).length := (List.dedup_sublist _).length_le
      _ = vs.length := List.length_map _ _
      _ = (⟨[], 0, 0⟩ : GroupState).pathsCount + vs.length := by simp
  · show (vs.foldl nextState ⟨[], 0, 0⟩).uniqueCount =
      (vs.foldl nextState ⟨[], 0, 0⟩).pathsCount ↔ (vs.map Vuln.id).Nodup
    rw [uniqueCount_foldl_empty, pathsCount_foldl vs ⟨[], 0, 0⟩]
    constructor
    · intro h
      have hlen : (vs.map Vuln.id).dedup.length = (vs.map Vuln.id).length := by
        rw [List.length_map]
        simpa using h
      exact List.dedup_eq_self.mp ((List.dedup_sublist _).eq_of_length hlen)
    · intro h
      rw [List.dedup_eq_self.mpr h, List.length_map]
      simp

/-- Witness for C3 on a concrete input with a repeated identifier: the
counters exist, satisfy the inequality, and the equality case correctly
fails because `"A"` occurs twice. -/
theorem groupVulns_counts_witness :
    (∀ v ∈ [({ id := "A", title := none, name := none, info := none,
               severity := none, description := none,
               fixedIn := none, packageManager := none } : Vuln),
             { id := "A", title := none, name := none, info := none,
               severity := none, description := none,
               fixedIn := none, packageManager := none }],
        v.id ∉ inheritedProps) ∧
    (∃ r, groupVulns (.arr
        [({ id := "A", title := none, name := none, info := none,
            severity := none, description := none,
            fixedIn := none, packageManager := none } : Vuln),
         { id := "A", title := none, name := none, info := none,
           severity := none, description := none,
           fixedIn := none, packageManager := none }]) = .ok r ∧
      r.vulnerabilitiesPathsCount = 2 ∧
      r.vulnerabilitiesUniqueCount ≤ r.vulnerabilitiesPathsCount ∧
      (r.vulnerabilitiesUniqueCount = r.vulnerabilitiesPathsCount ↔
        ([({ id := "A", title := none, name := none, info := none,
             severity := none, description := none,
             fixedIn := none, packageManager := none } : Vuln),
          { id := "A", title := none, name := none, info := none,
            severity := none, description := none,
            fixedIn := none, packageManager := none }].map Vuln.id).Nodup)) :=
  ⟨by decide, groupVulns_counts _ (by decide)⟩

/-- C7: an absent or non-array grouper input yields the defined degraded
output — the empty mapping with both counters zero — and not an error. -/
theorem groupVulns_degraded_inputs :
    groupVulns .absent = .ok ⟨[], 0, 0⟩ ∧
    groupVulns .malformed = .ok ⟨[], 0, 0⟩ :=
  ⟨rfl, rfl⟩

/-- C10: the grouper tests identifier freshness by the truthiness of
`result[vuln.id]` on a plain object, so an identifier equal to an inherited
`Object.prototype` property name (here `"constructor"`) makes the lookup
truthy on its very first occurrence: the new-group branch is skipped and the
subsequent `.list.push` on the inherited value throws. Conversely, for every
occurrence sequence whose identifiers avoid the inherited property names, the
loop runs to completion. -/
theorem groupVulns_inherited_id_collision :
    groupVulns (.arr [({ id := "constructor", title := none, name := none,
                         info := none, severity := none, description := none,
                         fixedIn := none, packageManager := none } : Vuln)]) =
      .error () ∧
    ∀ vs : List Vuln, (∀ v ∈ vs, v.id ∉ inheritedProps) →
      ∃ st, groupVulnsGo ⟨[], 0, 0⟩ vs = .ok st :=
  ⟨rfl, fun vs h => ⟨_, groupVulnsGo_safe vs ⟨[], 0, 0⟩ h⟩⟩

/-- Witness for C10's totality part at a concrete safe identifier. -/
theorem groupVulns_inherited_id_collision_witness :
    (∀ v ∈ [({ id := "npm:braces:20180219", title := none, name := none,
               info := none, severity := none, description := none,
               fixedIn := none, packageManager := none } : Vuln)],
        v.id ∉ inheritedProps) ∧
    ∃ st, groupVulnsGo ⟨[], 0, 0⟩
        [({ id := "npm:braces:20180219", title := none, name := none,
            info := none, severity := none, description := none,
            fixedIn := none, packageManager := none } : Vuln)] = .ok st :=
  ⟨by decide, groupVulns_inherited_id_collision.2 _ (by decide)⟩

/-- C6: whenever the description contains the `"## Remediation"` heading (at
character index `i`), the resolver returns the block of the description
starting at that heading, for every `fixedIn` value whatsoever: the step
priority is strict and `fixedIn` is ignored. -/
theorem getRemediation_description_priority
    (d : String) (fixedIn : Option (List String)) (i : Nat)
    (h : jsIndexOf d "## Remediation" = some i) :
    getRemediation (some d) fixedIn = .ok (marked (jsSubstring d i)) := by
  simp [getRemediation, h]

/-- Witness for C6 at a concrete input: the heading occurs at index 4 of
`"ov.\n## Remediation\nuse 2.0"`, and the resolver returns the suffix from
the heading on, even though `fixedIn` is the non-empty `["9.9.9"]`. -/
theorem getRemediation_description_priority_witness :
    jsIndexOf "ov.\n## Remediation\nuse 2.0" "## Remediation" = some 4 ∧
    getRemediation (some "ov.\n## Remediation\nuse 2.0") (some ["9.9.9"]) =
      .ok (marked "## Remediation\nuse 2.0") :=
  ⟨by decide,
   getRemediation_description_priority "ov.\n## Remediation\nuse 2.0"
     (some ["9.9.9"]) 4 (by decide)⟩

/-- Counterexample to C1 as stated: a call with an absent description fails.
The source evaluates `description.indexOf('## Remediation')` before anything
else, so `resolve(description=None, fixedIn=["1.2.3","1.2.4"])` throws a
`TypeError` instead of returning the joined versions. -/
theorem getRemediation_absent_description_throws :
    getRemediation none (some ["1.2.3", "1.2.4"]) = .error () := by
  rfl

/-- C1 amended: an absent description makes the resolver throw; for a present
description that lacks the `"## Remediation"` heading the resolver does not
fail: a non-empty `fixedIn` yields the synthesized heading followed by
`" Fixed in: "` and the versions joined by `", "` in original order, while an
absent or empty `fixedIn` yields exactly the default fallback text. -/
theorem getRemediation_no_heading
    (d : String) (hd : jsIndexOf d "## Remediation" = none) :
    (∀ fixedIn, getRemediation none fixedIn = .error ()) ∧
    (∀ v vs, getRemediation (some d) (some (v :: vs)) =
      .ok (marked ("## Remediation\n Fixed in: " ++ String.intercalate ", " (v :: vs)))) ∧
    getRemediation (some d) none = .ok (marked defaultRemediationText) ∧
    getRemediation (some d) (some []) = .ok (marked defaultRemediationText) := by
  refine ⟨fun fixedIn => rfl, fun v vs => ?_, ?_, ?_⟩ <;>
    simp [getRemediation, hd]

/-- Witness for the amended C1 at `description = some ""` (present but without
the heading) and `fixedIn = ["1.2.3", "1.2.4"]`: the result contains both
version strings joined by `", "`, and the empty/absent `fixedIn` calls return
the default fallback. -/
theorem getRemediation_no_heading_witness :
    jsIndexOf "" "## Remediation" = none ∧
    getRemediation (some "") (some ["1.2.3", "1.2.4"]) =
      .ok "## Remediation\n Fixed in: 1.2.3, 1.2.4" ∧
    getRemediation (some "") none = .ok defaultRemediationText := by
  refine ⟨by decide, ?_, ?_⟩
  · have h := (getRemediation_no_heading "" (by decide)).2.1 "1.2.3" ["1.2.4"]
    simpa [marked, String.intercalate] using h
  · exact (getRemediation_no_heading "" (by decide)).2.2.1

theorem uniqueCountFold_ok (rs : List Report) :
    ∀ acc : Nat, (∀ A ∈ rs, A.vulnerabilities ≠ none) →
      uniqueCountFold acc rs =
        .ok (acc + (rs.map fun A => (A.vulnerabilities.getD []).length).sum) := by
  induction rs with
  | nil => intro acc _; simp [uniqueCountFold]
  | cons A rest ih =>
    intro acc h
    cases hA : A.vulnerabilities with
    | none => exact absurd hA (h A (by simp))
    | some la =>
      have ih' := ih (acc + la.length) (fun B hB => h B (by simp [hB]))
      simp [uniqueCountFold, hA, ih', Nat.add_assoc]

theorem uniqueCountFold_error (rs : List Report) :
    ∀ acc : Nat, (∃ A ∈ rs, A.vulnerabilities = none) →
      uniqueCountFold acc rs = .error () := by
  induction rs with
  | nil => rintro acc ⟨A, hA, _⟩; exact absurd hA (List.not_mem_nil A)
  | cons B rest ih =>
    rintro acc ⟨A, hA, hnone⟩
    rcases List.mem_cons.mp hA with rfl | hA'
    · rw [uniqueCountFold, hnone]
    · cases hB : B.vulnerabilities with
      | none => rw [uniqueCountFold, hB]
      | some lb =>
        rw [uniqueCountFold, hB]
        exact ih _ ⟨A, hA', hnone⟩

theorem depCountFold_eq (rs : List Report) :
    ∀ acc : Nat, depCountFold acc rs =
      if anyMissingDep rs then depCountAfterLastMissing rs else acc + depSum rs := by
  induction rs with
  | nil => intro acc; simp [depCountFold, anyMissingDep, depSum]
  | cons A rest ih =>
    intro acc
    cases hA : A.dependencyCount with
    | some n =>
      rw [depCountFold]
      simp only [hA]
      rw [ih (acc + n)]
      have hmiss : anyMissingDep (A :: rest) = anyMissingDep rest := by
        simp [anyMissingDep, hA]
      by_cases hr : anyMissingDep rest
      · simp [hr, hmiss, depCountAfterLastMissing]
      · simp only [hr, if_false, hmiss, Bool.not_eq_true] at *
        simp [hr, depSum, hA, Nat.add_assoc]
    | none =>
      rw [depCountFold]
      simp only [hA]
      rw [ih 0]
      have hmiss : anyMissingDep (A :: rest) = true := by
        simp [anyMissingDep, hA]
      by_cases hr : anyMissingDep rest
      · simp [hr, hmiss, depCountAfterLastMissing]
      · simp [hr, hmiss, depCountAfterLastMissing, hA]

theorem mergeData_ok (rs : List Report) (h : ∀ A ∈ rs, A.vulnerabilities ≠ none) :
    mergeData rs = .ok
      { vulnerabilities := (rs.map fun A => A.vulnerabilities.getD []).flatten,
        uniqueCount := (rs.map fun A => (A.vulnerabilities.getD []).length).sum,
        summary := toString ((rs.map fun A => A.vulnerabilities.getD []).flatten).length ++
          " vulnerable dependency paths",
        dependencyCount := depCountFold 0 rs,
        paths := rs.map fun A => (A.path, A.packageManager) } := by
  rw [mergeData]
  rw [uniqueCountFold_ok rs 0 h]
  simp

/-- C4: merging two reports that both carry a vulnerabilities list and a
dependency count concatenates the lists in order and adds the counts. -/
theorem mergeData_pair (A B : Report) (la lb : List Vuln) (da db : Nat)
    (hA : A.vulnerabilities = some la) (hB : B.vulnerabilities = some lb)
    (hda : A.dependencyCount = some da) (hdb : B.dependencyCount = some db) :
    ∃ m, mergeData [A, B] = .ok m ∧
      m.vulnerabilities = la ++ lb ∧
      m.dependencyCount = da + db := by
  refine ⟨_, mergeData_ok [A, B] ?_, ?_, ?_⟩
  · intro C hC
    rcases List.mem_cons.mp hC with rfl | hC'
    · simp [hA]
    · rcases List.mem_cons.mp hC' with rfl | hC''
      · simp [hB]
      · exact absurd hC'' (List.not_mem_nil C)
  · simp [hA, hB]
  · simp [depCountFold, hda, hdb]

/-- Witness for C4 at two concrete one-vulnerability reports. -/
theorem mergeData_pair_witness :
    ({ vulnerabilities := some [({ id := "A", title := none, name := none,
                                   info := none, severity := none,
                                   description := none, fixedIn := none,
                                   packageManager := none } : Vuln)],
       dependencyCount := some 7, path := some "p1",
       packageManager := some "npm" } : Report).vulnerabilities =
      some [({ id := "A", title := none, name := none, info := none,
               severity := none, description := none, fixedIn := none,
               packageManager := none } : Vuln)] ∧
    (∃ m, mergeData
        [({ vulnerabilities := some [({ id := "A", title := none, name := none,
                                        info := none, severity := none,
                                        description := none, fixedIn := none,
                                        packageManager := none } : Vuln)],
            dependencyCount := some 7, path := some "p1",
            packageManager := some "npm" } : Report),
         { vulnerabilities := some [({ id := "B", title := none, name := none,
                                       info := none, severity := none,
                                       description := none, fixedIn := none,
                                       packageManager := none } : Vuln)],
           dependencyCount := some 4, path := some "p2",
           packageManager := some "maven" }] = .ok m ∧
      m.vulnerabilities =
        [({ id := "A", title := none, name := none, info := none,
            severity := none, description := none, fixedIn := none,
            packageManager := none } : Vuln)] ++
        [({ id := "B", title := none, name := none, info := none,
            severity := none, description := none, fixedIn := none,
            packageManager := none } : Vuln)] ∧
      m.dependencyCount = 7 + 4) :=
  ⟨rfl, mergeData_pair _ _ _ _ _ _ rfl rfl rfl rfl⟩

/-- Counterexample to C5 as stated: the merger *does* fail when a report
lacks its vulnerability list — the `totalUniqueCount` reduce dereferences
`item.vulnerabilities.length` and throws — and a missing dependency count is
not treated as zero: `acc + undefined` is `NaN` and `NaN || 0` resets the
running total, so counts 5, missing, 3 total 3 rather than the sum 8. -/
theorem mergeData_missing_fields_cex :
    mergeData [({ vulnerabilities := none, dependencyCount := some 1,
                  path := none, packageManager := none } : Report)] =
      .error () ∧
    (∃ m, mergeData
        [({ vulnerabilities := some [], dependencyCount := some 5,
            path := none, packageManager := none } : Report),
         { vulnerabilities := some [], dependencyCount := none,
           path := none, packageManager := none },
         { vulnerabilities := some [], dependencyCount := some 3,
           path := none, packageManager := none }] = .ok m ∧
      m.dependencyCount = 3 ∧ m.dependencyCount ≠ 5 + 0 + 3) :=
  ⟨rfl, ⟨_, rfl, rfl, by decide⟩⟩

/-- C5 amended: the merger throws whenever some report lacks its
vulnerability list (even though the concatenation alone would have treated it
as contributing zero occurrences); when every report carries a list, the
merger succeeds, the occurrence list is the in-order concatenation, and the
dependency total is the sum of the counts occurring after the last report
whose count is missing (the full sum when none is missing) — a missing count
resets the running total to zero rather than contributing zero. -/
theorem mergeData_missing_fields_amended (rs : List Report) :
    ((∃ A ∈ rs, A.vulnerabilities = none) → mergeData rs = .error ()) ∧
    ((∀ A ∈ rs, A.vulnerabilities ≠ none) →
      ∃ m, mergeData rs = .ok m ∧
        m.vulnerabilities = (rs.map fun A => A.vulnerabilities.getD []).flatten ∧
        m.dependencyCount =
          (if anyMissingDep rs then depCountAfterLastMissing rs else depSum rs)) := by
  constructor
  · intro h
    rw [mergeData, uniqueCountFold_error rs 0 h]
  · intro h
    refine ⟨_, mergeData_ok rs h, rfl, ?_⟩
    show depCountFold 0 rs = _
    rw [depCountFold_eq rs 0]
    by_cases hm : anyMissingDep rs <;> simp [hm]

/-- Witness for the amended C5: a report with an absent vulnerability list
makes the merger throw, and the concrete counts 5, missing, 3 (all lists
present) merge successfully to a dependency total of 3. -/
theorem mergeData_missing_fields_amended_witness :
    mergeData [({ vulnerabilities := none, dependencyCount := none,
                  path := none, packageManager := none } : Report)] =
      .error () ∧
    (∃ m, mergeData
        [({ vulnerabilities := some [], dependencyCount := some 5,
            path := none, packageManager := none } : Report),
         { vulnerabilities := some [], dependencyCount := none,
           path := none, packageManager := none },
         { vulnerabilities := some [], dependencyCount := some 3,
           path := none, packageManager := none }] = .ok m ∧
      m.vulnerabilities =
        ([({ vulnerabilities := some [], dependencyCount := some 5,
             path := none, packageManager := none } : Report),
          { vulnerabilities := some [], dependencyCount := none,
            path := none, packageManager := none },
          { vulnerabilities := some [], dependencyCount := some 3,
            path := none, packageManager := none }].map
          fun A => A.vulnerabilities.getD []).flatten ∧
      m.dependencyCount =
        (if anyMissingDep
            [({ vulnerabilities := some [], dependencyCount := some 5,
                path := none, packageManager := none } : Report),
             { vulnerabilities := some [], dependencyCount := none,
               path := none, packageManager := none },
             { vulnerabilities := some [], dependencyCount := some 3,
               path := none, packageManager := none }]
         then depCountAfterLastMissing
            [({ vulnerabilities := some [], dependencyCount := some 5,
                path := none, packageManager := none } : Report),
             { vulnerabilities := some [], dependencyCount := none,
               path := none, packageManager := none },
             { vulnerabilities := some [], dependencyCount := some 3,
               path := none, packageManager := none }]
         else depSum
            [({ vulnerabilities := some [], dependencyCount := some 5,
                path := none, packageManager := none } : Report),
             { vulnerabilities := some [], dependencyCount := none,
               path := none, packageManager := none },
             { vulnerabilities := some [], dependencyCount := some 3,
               path := none, packageManager := none }])) :=
  ⟨(mergeData_missing_fields_amended _).1
     ⟨{ vulnerabilities := none, dependencyCount := none,
        path := none, packageManager := none }, by simp, rfl⟩,
   (mergeData_missing_fields_amended _).2 (by decide)⟩

/-- C8: in multi-report mode (all reports carrying their vulnerability lists,
identifiers clear of inherited properties), the final render context exposes
both count figures: the number inside the `"vulnerable dependency paths"`
summary string equals the merger's raw sum of per-report vulnerability-list
lengths (the grouper's pathsCount over the merged list, which rebuilds the
summary at source line 98, provably coincides with that raw sum), while
`uniqueCount` holds the grouper's post-grouping distinct-identifier count —
the authoritative display value, which is at most the raw sum. -/
theorem processData_multi_exposes_both_counts (rs : List Report) (flag : Bool)
    (hvulns : ∀ A ∈ rs, A.vulnerabilities ≠ none)
    (hsafe : ∀ A ∈ rs, ∀ v ∈ A.vulnerabilities.getD [], v.id ∉ inheritedProps) :
    ∃ ctx, processData (.multi rs) flag = .ok ctx ∧
      ctx.summary =
        toString ((rs.map fun A => (A.vulnerabilities.getD []).length).sum) ++
          " vulnerable dependency paths" ∧
      ctx.uniqueCount =
        ((((rs.map fun A => A.vulnerabilities.getD []).flatten).map Vuln.id).dedup).length ∧
      ctx.uniqueCount ≤ (rs.map fun A => (A.vulnerabilities.getD []).length).sum := by
  have hsafem : ∀ v ∈ (rs.map fun A => A.vulnerabilities.getD []).flatten,
      v.id ∉ inheritedProps := by
    intro v hv
    rw [List.mem_flatten] at hv
    obtain ⟨l, hl, hvl⟩ := hv
    obtain ⟨A, hA, rfl⟩ := List.mem_map.mp hl
    exact hsafe A hA v hvl
  have hsum : ((rs.map fun A => A.vulnerabilities.getD []).flatten).length =
      (rs.map fun A => (A.vulnerabilities.getD []).length).sum := by
    rw [List.length_flatten, List.map_map]
    rfl
  have h2 : processData (.multi rs) flag = .ok
      { vulnerabilities :=
          (((rs.map fun A => A.vulnerabilities.getD []).flatten).foldl
            nextState ⟨[], 0, 0⟩).res,
        uniqueCount :=
          (((rs.map fun A => A.vulnerabilities.getD []).flatten).foldl
            nextState ⟨[], 0, 0⟩).uniqueCount,
        summary :=
          toString (((rs.map fun A => A.vulnerabilities.getD []).flatten).foldl
            nextState ⟨[], 0, 0⟩).pathsCount ++ " vulnerable dependency paths",
        showSummaryOnly := flag,
        dependencyCount := some (depCountFold 0 rs),
        paths := some (rs.map fun A => (A.path, A.packageManager)) } := by
    have hstep : processData (.multi rs) flag =
        match mergeData rs with
        | .error e => .error e
        | .ok m =>
          generateTemplate (.arr m.vulnerabilities) (some m.dependencyCount)
            (some m.paths) flag := rfl
    rw [hstep, mergeData_ok rs hvulns]
    show generateTemplate (.arr ((rs.map fun A => A.vulnerabilities.getD []).flatten))
      (some (depCountFold 0 rs)) (some (rs.map fun A => (A.path, A.packageManager)))
      flag = _
    simp only [generateTemplate]
    rw [groupVulns_run _ hsafem]
    rfl
  refine ⟨_, h2, ?_, ?_, ?_⟩
  · show toString (((rs.map fun A => A.vulnerabilities.getD []).flatten).foldl
        nextState ⟨[], 0, 0⟩).pathsCount ++ " vulnerable dependency paths" = _
    rw [pathsCount_foldl, ← hsum]
    simp
  · exact uniqueCount_foldl_empty _
  · show (((rs.map fun A => A.vulnerabilities.getD []).flatten).foldl
        nextState ⟨[], 0, 0⟩).uniqueCount ≤ _
    rw [uniqueCount_foldl_empty, ← hsum]
    calc ((((rs.map fun A => A.vulnerabilities.getD []).flatten).map Vuln.id).dedup).length
        ≤ (((rs.map fun A => A.vulnerabilities.getD []).flatten).map Vuln.id).length :=
          (List.dedup_sublist _).length_le
      _ = ((rs.map fun A => A.vulnerabilities.getD []).flatten).length :=
          List.length_map _ _

/-- Witness for C8 at a concrete two-report input whose three occurrences
share identifier `"A"` twice across reports: the summary figure is the raw
sum 3, the unique count is 2. -/
theorem processData_multi_exposes_both_counts_witness :
    (∀ A ∈ [({ vulnerabilities := some
                 [({ id := "A", title := none, name := none, info := none,
                     severity := none, description := none, fixedIn := none,
                     packageManager := none } : Vuln),
                  { id := "B", title := none, name := none, info := none,
                    severity := none, description := none, fixedIn := none,
                    packageManager := none }],
               dependencyCount := some 10, path := some "p1",
               packageManager := some "npm" } : Report),
             { vulnerabilities := some
                 [({ id := "A", title := none, name := none, info := none,
                     severity := none, description := none, fixedIn := none,
                     packageManager := none } : Vuln)],
               dependencyCount := some 2, path := some "p2",
               packageManager := some "maven" }],
        A.vulnerabilities ≠ none) ∧
    (∃ ctx, processData (.multi
        [({ vulnerabilities := some
              [({ id := "A", title := none, name := none, info := none,
                  severity := none, description := none, fixedIn := none,
                  packageManager := none } : Vuln),
               { id := "B", title := none, name := none, info := none,
                 severity := none, description := none, fixedIn := none,
                 packageManager := none }],
            dependencyCount := some 10, path := some "p1",
            packageManager := some "npm" } : Report),
         { vulnerabilities := some
             [({ id := "A", title := none, name := none, info := none,
                 severity := none, description := none, fixedIn := none,
                 packageManager := none } : Vuln)],
           dependencyCount := some 2, path := some "p2",
           packageManager := some "maven" }]) true = .ok ctx ∧
      ctx.summary = "3 vulnerable dependency paths" ∧
      ctx.uniqueCount = 2 ∧ ctx.uniqueCount ≤ 3) := by
  have h := processData_multi_exposes_both_counts
    [({ vulnerabilities := some
          [({ id := "A", title := none, name := none, info := none,
              severity := none, description := none, fixedIn := none,
              packageManager := none } : Vuln),
           { id := "B", title := none, name := none, info := none,
             severity := none, description := none, fixedIn := none,
             packageManager := none }],
        dependencyCount := some 10, path := some "p1",
        packageManager := some "npm" } : Report),
     { vulnerabilities := some
         [({ id := "A", title := none, name := none, info := none,
             severity := none, description := none, fixedIn := none,
             packageManager := none } : Vuln)],
       dependencyCount := some 2, path := some "p2",
       packageManager := some "maven" }] true (by decide) (by decide)
  obtain ⟨ctx, hrun, hsummary, huc, hle⟩ := h
  exact ⟨by decide, ctx, hrun, by rw [hsummary]; rfl, by rw [huc]; rfl,
    by simpa using hle⟩

/-- Counterexample to C9 as stated: on a failed invocation the error is NOT
delivered to the completion callback. `SnykToHtml.run` chains
`.then(reportCallback).catch(console.log)` (source lines 28-31), so the
callback — whose type carries only the rendered text — is never invoked on
failure; the error goes to `console.log`. -/
theorem run_error_bypasses_callback :
    (SnykToHtml.run (.error "ENOENT: no such file or directory")).callbackCalls = [] ∧
    (SnykToHtml.run (.error "ENOENT: no such file or directory")).consoleLogs =
      ["ENOENT: no such file or directory"] :=
  ⟨rfl, rfl⟩

/-- C9 amended: a failure yields no rendered document and no invocation of
the completion callback — the error signal goes to the console log, not the
callback; a successful invocation invokes the callback exactly once with the
complete rendered document; and the success path tolerates sparse or
malformed scan data: a single report whose vulnerability field is absent or
not an array still produces a complete render context (the grouper degrades
it to the empty mapping). -/
theorem run_dispatch (e doc : String) (flag : Bool) (dep : Option Nat) :
    SnykToHtml.run (.error e) = { callbackCalls := [], consoleLogs := [e] } ∧
    SnykToHtml.run (.ok doc) = { callbackCalls := [doc], consoleLogs := [] } ∧
    (∃ ctx, processData (.single .malformed dep) flag = .ok ctx) ∧
    (∃ ctx, processData (.single .absent dep) flag = .ok ctx) :=
  ⟨rfl, rfl, ⟨_, rfl⟩, ⟨_, rfl⟩⟩
